import Mathlib

/-!
# Sequential-consistency driver for etcd

A shallow embedding of
`test-template/go-test-sequential-consistency/serial_driver_test_sequential_consistency.go`.

The driver is a straight-line, single-threaded Go program.  Everything it does that is
visible from outside is a call into a collaborator: the etcd client (`clientv3.New`,
`Put`, `Get`, `Close`), the Antithesis assertion SDK (`assert.Sometimes`, `assert.Always`,
`assert.Reachable`, `assert.Unreachable`), the logger and `os.Exit`.  The embedding threads
one `State` through the statements in source order; the state carries the two local
variables the specification speaks about (`cli`, `last_success`), the chronological trace
of the collaborator calls, and whether the process has already terminated.  The outcomes
of the fallible collaborator calls are supplied by an `Env`.
-/

namespace SequentialConsistency

/-! ## Environment -/

/-- Outcome of `cli.Get(ctx, k)`: either `err != nil`, or a response whose `Kvs` slice holds
the listed values (each `string(Kvs[j].Value)`), possibly none. -/
inductive GetResult where
  | error
  | response (kvs : List String)
  deriving DecidableEq, Repr

/-- Outcomes of the fallible calls of one run.  Index `0` is the initialization block,
index `i ≥ 1` is loop iteration `i`; each block performs at most one call of each kind. -/
structure Env where
  /-- Whether `clientv3.New` returns `err == nil` in block `n`. -/
  connect : Nat → Bool
  /-- Whether the initial `cli.Put(ctx, k, "0")` returns `err == nil`. -/
  initPut : Bool
  /-- What `cli.Get(ctx, k)` returns in iteration `i`. -/
  get : Nat → GetResult
  /-- Whether `cli.Put(ctx, key, strconv.Itoa(i))` returns `err == nil` in iteration `i`. -/
  put : Nat → Bool

/-! ## Observable events and program state -/

/-- How the process ended, when it ended before `main` returned. -/
inductive Termination where
  /-- Process ended through `os.Exit(code)` (also inside `log.Fatalf`). -/
  | exit (code : Nat)
  /-- Process ended through a Go run-time panic. -/
  | panic
  deriving DecidableEq, Repr

/-- One collaborator call, as it appears in the trace. -/
inductive Event where
  /-- Successful `clientv3.New`: the client of block `session` now exists. -/
  | connected (session : Nat)
  /-- Call of `cli.Close()` on the client of block `session`. -/
  | closed (session : Nat)
  /-- Call of `cli.Put(ctx, key, value)`, with whether it returned `err == nil`. -/
  | put (session : Nat) (key value : String) (ok : Bool)
  /-- Call of `cli.Get(ctx, key)`, with whether it returned `err == nil`. -/
  | get (session : Nat) (key : String) (ok : Bool)
  /-- Call of `assert.Sometimes(cond, label, _)`. -/
  | sometimes (cond : Bool) (label : String)
  /-- Call of `assert.Always(cond, label, {"last_read": _, "expecting": _})`. -/
  | always (cond : Bool) (label : String) (last_read expecting : String)
  /-- Call of `assert.Reachable(label, _)`. -/
  | reachable (label : String)
  /-- Call of `assert.Unreachable(label, _)`. -/
  | unreachable (label : String)
  /-- Line written by `log.Printf` or `log.Fatalf` (the format string). -/
  | log (msg : String)
  deriving DecidableEq, Repr

/-- Program state between two statements. -/
structure State where
  /-- Collaborator calls made so far, oldest first. -/
  trace : List Event
  /-- Set once the process has terminated; every later statement is then a no-op. -/
  halted : Option Termination
  /-- The variable `cli`, as the number of the block whose `Connect()` produced it. -/
  cli : Nat
  /-- The variable `last_success`. -/
  last_success : String
  deriving DecidableEq, Repr

/-- State at entry of `main`: nothing has happened; `cli` and `last_success` are not yet
assigned (their fields hold placeholders that no statement reads before assigning). -/
def State.start : State := ⟨[], none, 0, ""⟩

/-- Perform a collaborator call, unless the process has already terminated. -/
def State.emit (s : State) (e : Event) : State :=
  match s.halted with
  | some _ => s
  | none => { s with trace := s.trace ++ [e] }

/-- Terminate the process, unless it has already terminated. -/
def State.stop (s : State) (t : Termination) : State :=
  match s.halted with
  | some _ => s
  | none => { s with halted := some t }

/-- Assignment `cli = c`. -/
def State.setCli (s : State) (c : Nat) : State :=
  match s.halted with
  | some _ => s
  | none => { s with cli := c }

/-- Assignment `last_success = v`. -/
def State.setLastSuccess (s : State) (v : String) : State :=
  match s.halted with
  | some _ => s
  | none => { s with last_success := v }

/-- Exit status of the process: that of `os.Exit`, `2` after a panic, `0` when `main`
returns. -/
def State.exitStatus (s : State) : Nat :=
  match s.halted with
  | none => 0
  | some (.exit c) => c
  | some .panic => 2

/-! ## Library calls -/

/-- Go `log.Printf`: write a line. -/
def logPrintf (s : State) (msg : String) : State := s.emit (.log msg)

/-- Go `log.Fatalf`: "equivalent to Printf followed by a call to os.Exit(1)". -/
def logFatalf (s : State) (msg : String) : State := (s.emit (.log msg)).stop (.exit 1)

/-- Go `os.Exit`. -/
def osExit (s : State) (code : Nat) : State := s.stop (.exit code)

/-- Antithesis `assert.Sometimes`. -/
def assertSometimes (s : State) (cond : Bool) (label : String) : State :=
  s.emit (.sometimes cond label)

/-- Antithesis `assert.Always`. -/
def assertAlways (s : State) (cond : Bool) (label last_read expecting : String) : State :=
  s.emit (.always cond label last_read expecting)

/-- Antithesis `assert.Reachable`. -/
def assertReachable (s : State) (label : String) : State := s.emit (.reachable label)

/-- Antithesis `assert.Unreachable`. -/
def assertUnreachable (s : State) (label : String) : State := s.emit (.unreachable label)

/-- Go `strconv.Itoa` on the loop counter (a non-negative `int`): its decimal string. -/
def Itoa (i : Nat) : String := toString i

/-- Method `Close` of the client held in `cli`. -/
def Close (s : State) : State := s.emit (.closed s.cli)

/-! ## The program -/

/-- The variable `k` (line 51). -/
def k : String := "sequential-consistency-test-key"

/-- Function `Connect` (lines 15-31), called in block `n`.  The choice of host is random and
does not influence control flow.  On `err != nil` the statements of lines 25, 27, 28 are
sequenced in source order; otherwise the new client is returned. -/
def Connect (env : Env) (n : Nat) (s : State) : State :=
  if env.connect n = false then
    -- line 25: log.Fatalf("Failed to connect to etcd: %v", err)
    let s := logFatalf s "Failed to connect to etcd: %v"
    -- line 27: assert.Unreachable("Client failed to connect to an etcd host", ...)
    let s := assertUnreachable s "Client failed to connect to an etcd host"
    -- line 28: os.Exit(1)
    osExit s 1
  else
    -- line 30: return cli
    s.emit (.connected n)

/-- Lines 51-60: the initialization block. -/
def initialization (env : Env) (s : State) : State :=
  -- line 52: cli := Connect()
  let s := (Connect env 0 s).setCli 0
  -- line 53: _, err := cli.Put(ctx, k, "0")
  let s := s.emit (.put s.cli k "0" env.initPut)
  -- line 55: assert.Sometimes(err == nil, ...)
  let s := assertSometimes s env.initPut
    "Client can initialize sequential consistency test successfully"
  -- line 56: cli.Close()
  let s := Close s
  -- lines 57-60: if err != nil { log.Printf(...); os.Exit(0) }
  if env.initPut = false then
    let s := logPrintf s "Client failed to initialize sequential-consistency test successfully"
    osExit s 0
  else
    s

/-- Lines 64-86: the body of the loop for counter value `i`.  Each `continue` ends the
body at once, so the statements after it are those of the other branch.  Evaluating
`get_resp.Kvs[0]` on a response without entries is a Go run-time panic (index out of
range). -/
def iteration (env : Env) (i : Nat) (s : State) : State :=
  -- line 64: cli = Connect()
  let s := (Connect env i s).setCli i
  -- line 66: get_resp, err := cli.Get(ctx, k)
  match env.get i with
  | .error =>
    let s := s.emit (.get s.cli k false)
    -- line 68: assert.Sometimes(err == nil, ...)
    let s := assertSometimes s false "Client can make successful get requests"
    -- lines 70-71: log.Printf(...); continue
    logPrintf s "Client failed to get key %s: %v"
  | .response kvs =>
    let s := s.emit (.get s.cli k true)
    -- line 68: assert.Sometimes(err == nil, ...)
    let s := assertSometimes s true "Client can make successful get requests"
    -- line 73: assert.Always(string(get_resp.Kvs[0].Value) == last_success, ...)
    let s :=
      match kvs with
      | [] => s.stop .panic
      | v :: _ =>
        assertAlways s (decide (v = s.last_success))
          "Client's read should always reflect the latest completed write" v s.last_success
    -- line 76: _, err = cli.Put(ctx, "sequential-consistency-test-key", strconv.Itoa(i))
    let s := s.emit (.put s.cli "sequential-consistency-test-key" (Itoa i) (env.put i))
    -- line 78: assert.Sometimes(err == nil, ...)
    let s := assertSometimes s (env.put i)
      "Client can initialize sequential consistency test successfully"
    if env.put i = false then
      -- lines 80-81: log.Printf(...); continue
      logPrintf s "Client failed to write to key %s: %v"
    else
      -- line 83: last_success = strconv.Itoa(i)
      let s := s.setLastSuccess (Itoa i)
      -- line 86: cli.Close()
      Close s

/-- The loop `for i := 1; i <= n; i++` (line 63 has `n = 1000`), entered in state `s`:
the state after the bodies for `i = 1, …, n` have run in order. -/
def loop (env : Env) : Nat → State → State
  | 0, s => s
  | n + 1, s => iteration env (n + 1) (loop env n s)

/-- Lines 48-62: the state in which the loop is entered. -/
def beforeLoop (env : Env) : State :=
  (initialization env State.start).setLastSuccess "0"

/-- Function `TestSequentialConsistency` (lines 33-91). -/
def TestSequentialConsistency (env : Env) : State :=
  let s := beforeLoop env
  -- lines 63-87: for i := 1; i <= 1000; i++
  let s := loop env 1000 s
  -- line 89: assert.Reachable("Completion of a sequential consistency check", nil)
  let s := assertReachable s "Completion of a sequential consistency check"
  -- line 90: log.Printf("Completion of a sequential consistency check")
  logPrintf s "Completion of a sequential consistency check"

/-- Function `main` (lines 93-95). -/
def main (env : Env) : State := TestSequentialConsistency env

/-! ## Reading a counter value back -/

/-- The non-negative integer a decimal string denotes (most significant digit first). -/
def decimalValue (v : String) : Nat :=
  v.data.foldl (fun acc c => 10 * acc + (c.toNat - 48)) 0

/-- The block whose `Connect()` an event reports, for a `connected` event. -/
def Event.connectedSession : Event → Option Nat
  | .connected n => some n
  | _ => none

/-- Whether an event is an `assert.Reachable` or `assert.Unreachable` call. -/
def Event.isReachability : Event → Bool
  | .reachable _ => true
  | .unreachable _ => true
  | _ => false

/-! ## Concrete runs -/

/-- A store that behaves: every call succeeds and every read returns the value written by
the previous iteration. -/
def envAllOk : Env :=
  ⟨fun _ => true, true, fun i => .response [Itoa (i - 1)], fun _ => true⟩

/-- As `envAllOk`, except that the get of iteration 1 fails. -/
def envReadFails : Env :=
  ⟨fun _ => true, true, fun i => if i = 1 then .error else .response ["0"], fun _ => true⟩

/-- Initialization succeeds, the get of iteration 1 fails, the put of iteration 2 fails;
every other call succeeds. -/
def envLeak : Env :=
  ⟨fun _ => true, true, fun i => if i = 1 then .error else .response ["0"],
    fun i => decide (i ≠ 2)⟩

/-- No replica can be reached: `clientv3.New` fails. -/
def envConnectFails : Env :=
  ⟨fun _ => false, true, fun _ => .response ["0"], fun _ => true⟩

/-- The initial put fails. -/
def envInitPutFails : Env :=
  ⟨fun _ => true, false, fun _ => .response ["0"], fun _ => true⟩

/-- Initialization succeeds; the get of iteration 1 returns `err == nil` and a response
without entries (what etcd answers when the key is absent). -/
def envEmptyRead : Env :=
  ⟨fun _ => true, true, fun _ => .response [], fun _ => true⟩

/-- Initialization succeeds; in iteration 1 the get returns `"0"` and the put fails. -/
def envPutFails : Env :=
  ⟨fun _ => true, true, fun _ => .response ["0"], fun i => decide (i ≠ 1)⟩

/-! ## Basic facts about the embedding -/

theorem digitChar_value (d : Nat) (h : d < 10) : (Nat.digitChar d).toNat - 48 = d := by
  interval_cases d <;> rfl

theorem foldl_toDigitsCore (fuel : Nat) :
    ∀ (n : Nat) (ds : List Char), n < fuel →
      (Nat.toDigitsCore 10 fuel n ds).foldl (fun acc c => 10 * acc + (c.toNat - 48)) 0
        = ds.foldl (fun acc c => 10 * acc + (c.toNat - 48)) n := by
  induction fuel with
  | zero => intro n ds h; omega
  | succ fuel ih =>
    intro n ds h
    simp only [Nat.toDigitsCore]
    split
    · rename_i h0
      simp only [List.foldl_cons, Nat.mul_zero, Nat.zero_add]
      rw [digitChar_value _ (Nat.mod_lt _ (by decide))]
      congr 1
      omega
    · rename_i h0
      rw [ih (n / 10) _ (by omega)]
      simp only [List.foldl_cons]
      rw [digitChar_value _ (Nat.mod_lt _ (by decide))]
      congr 1
      omega

/-- Reading back what `strconv.Itoa` printed gives the number printed. -/
theorem decimalValue_Itoa (n : Nat) : decimalValue (Itoa n) = n := by
  show (Nat.toDigits 10 n).asString.data.foldl _ 0 = n
  simp only [List.asString, Nat.toDigits]
  rw [foldl_toDigitsCore (n + 1) n [] (by omega)]
  rfl

/-- Once the process has terminated, a loop body changes nothing. -/
theorem iteration_halted (env : Env) (i : Nat) (s : State) (t : Termination)
    (h : s.halted = some t) : iteration env i s = s := by
  cases s with
  | mk tr hl c l =>
    simp only at h
    subst h
    unfold iteration Connect
    generalize env.connect i = c
    generalize env.get i = g
    generalize env.put i = p
    rcases g with _ | (_ | ⟨v, r⟩) <;> cases c <;> cases p <;> rfl

/-- Once the process has terminated, the loop changes nothing. -/
theorem loop_halted (env : Env) (n : Nat) (s : State) (t : Termination)
    (h : s.halted = some t) : loop env n s = s := by
  induction n with
  | zero => rfl
  | succ n ih => rw [loop, ih, iteration_halted env _ s t h]

/-- Body of the loop when `Connect` fails: `log.Fatalf` ends the process. -/
theorem iteration_connect_fail (env : Env) (i : Nat) (s : State)
    (h : s.halted = none) (hc : env.connect i = false) :
    iteration env i s =
      ⟨s.trace ++ [.log "Failed to connect to etcd: %v"], some (.exit 1), s.cli,
        s.last_success⟩ := by
  cases s with
  | mk tr hl c l =>
    simp only at h
    subst h
    unfold iteration Connect
    rw [hc]
    generalize env.get i = g
    generalize env.put i = p
    rcases g with _ | (_ | ⟨v, r⟩) <;> cases p <;> rfl

/-- Body of the loop when the get fails. -/
theorem iteration_get_error (env : Env) (i : Nat) (s : State)
    (h : s.halted = none) (hc : env.connect i = true) (hg : env.get i = .error) :
    iteration env i s =
      ⟨s.trace ++ [.connected i, .get i k false,
          .sometimes false "Client can make successful get requests",
          .log "Client failed to get key %s: %v"], none, i, s.last_success⟩ := by
  cases s with
  | mk tr hl c l =>
    simp only at h
    subst h
    simp [iteration, Connect, hc, hg, State.emit, State.setCli, logPrintf, assertSometimes]

/-- Body of the loop when the get returns no error and no entry: indexing `Kvs[0]`
panics. -/
theorem iteration_get_empty (env : Env) (i : Nat) (s : State)
    (h : s.halted = none) (hc : env.connect i = true) (hg : env.get i = .response []) :
    iteration env i s =
      ⟨s.trace ++ [.connected i, .get i k true,
          .sometimes true "Client can make successful get requests"],
        some .panic, i, s.last_success⟩ := by
  cases s with
  | mk tr hl c l =>
    simp only at h
    subst h
    cases hp : env.put i <;>
      simp [iteration, Connect, hc, hg, hp, State.emit, State.stop, State.setCli,
        State.setLastSuccess, logPrintf, assertSometimes, Close]

/-- Body of the loop when the get returns an entry and the put fails. -/
theorem iteration_put_fail (env : Env) (i : Nat) (s : State) (v : String) (rest : List String)
    (h : s.halted = none) (hc : env.connect i = true) (hg : env.get i = .response (v :: rest))
    (hp : env.put i = false) :
    iteration env i s =
      ⟨s.trace ++ [.connected i, .get i k true,
          .sometimes true "Client can make successful get requests",
          .always (decide (v = s.last_success))
            "Client's read should always reflect the latest completed write" v s.last_success,
          .put i k (Itoa i) false,
          .sometimes false "Client can initialize sequential consistency test successfully",
          .log "Client failed to write to key %s: %v"], none, i, s.last_success⟩ := by
  cases s with
  | mk tr hl c l =>
    simp only at h
    subst h
    simp [iteration, Connect, hc, hg, hp, State.emit, State.setCli, logPrintf,
      assertSometimes, assertAlways, k]

/-- Body of the loop when the get returns an entry and the put succeeds. -/
theorem iteration_put_ok (env : Env) (i : Nat) (s : State) (v : String) (rest : List String)
    (h : s.halted = none) (hc : env.connect i = true) (hg : env.get i = .response (v :: rest))
    (hp : env.put i = true) :
    iteration env i s =
      ⟨s.trace ++ [.connected i, .get i k true,
          .sometimes true "Client can make successful get requests",
          .always (decide (v = s.last_success))
            "Client's read should always reflect the latest completed write" v s.last_success,
          .put i k (Itoa i) true,
          .sometimes true "Client can initialize sequential consistency test successfully",
          .closed i], none, i, Itoa i⟩ := by
  cases s with
  | mk tr hl c l =>
    simp only at h
    subst h
    simp [iteration, Connect, hc, hg, hp, State.emit, State.setCli, State.setLastSuccess,
      assertSometimes, assertAlways, Close, k]

/-- State at loop entry when the first `Connect` fails. -/
theorem beforeLoop_connect_fail (env : Env) (hc : env.connect 0 = false) :
    beforeLoop env = ⟨[.log "Failed to connect to etcd: %v"], some (.exit 1), 0, ""⟩ := by
  unfold beforeLoop initialization Connect
  rw [hc]
  cases env.initPut <;> rfl

/-- State at loop entry when the initial put fails. -/
theorem beforeLoop_put_fail (env : Env) (hc : env.connect 0 = true)
    (hp : env.initPut = false) :
    beforeLoop env =
      ⟨[.connected 0, .put 0 k "0" false,
          .sometimes false "Client can initialize sequential consistency test successfully",
          .closed 0,
          .log "Client failed to initialize sequential-consistency test successfully"],
        some (.exit 0), 0, ""⟩ := by
  unfold beforeLoop initialization Connect
  rw [hc, hp]
  rfl

/-- State at loop entry when initialization succeeds. -/
theorem beforeLoop_ok (env : Env) (hc : env.connect 0 = true) (hp : env.initPut = true) :
    beforeLoop env =
      ⟨[.connected 0, .put 0 k "0" true,
          .sometimes true "Client can initialize sequential consistency test successfully",
          .closed 0], none, 0, "0"⟩ := by
  unfold beforeLoop initialization Connect
  rw [hc, hp]
  rfl

/-- A loop that is still running after `n + 1` bodies was running after `n`. -/
theorem loop_running_pred (env : Env) (n : Nat) (s : State)
    (h : (loop env (n + 1) s).halted = none) : (loop env n s).halted = none := by
  cases hs : (loop env n s).halted with
  | none => rfl
  | some t =>
    rw [loop, iteration_halted env _ _ t hs, hs] at h
    cases h

/-- A loop that is still running after `n` bodies was running after every `m ≤ n`. -/
theorem loop_running_le (env : Env) (s : State) (m n : Nat) (hmn : m ≤ n)
    (h : (loop env n s).halted = none) : (loop env m s).halted = none := by
  induction n with
  | zero =>
    have : m = 0 := by omega
    subst this
    exact h
  | succ n ih =>
    rcases Nat.lt_or_ge m (n + 1) with hlt | hge
    · exact ih (by omega) (loop_running_pred env n s h)
    · have : m = n + 1 := by omega
      subst this
      exact h

/-- The bodies of the loop only add to the trace. -/
theorem iteration_trace_extends (env : Env) (i : Nat) (s : State) :
    ∃ evs, (iteration env i s).trace = s.trace ++ evs := by
  cases h : s.halted with
  | some t => exact ⟨[], by rw [iteration_halted env i s t h, List.append_nil]⟩
  | none =>
    cases hc : env.connect i with
    | false => exact ⟨_, by rw [iteration_connect_fail env i s h hc]⟩
    | true =>
      rcases hg : env.get i with _ | (_ | ⟨v, rest⟩)
      · exact ⟨_, by rw [iteration_get_error env i s h hc hg]⟩
      · exact ⟨_, by rw [iteration_get_empty env i s h hc hg]⟩
      · cases hp : env.put i with
        | false => exact ⟨_, by rw [iteration_put_fail env i s v rest h hc hg hp]⟩
        | true => exact ⟨_, by rw [iteration_put_ok env i s v rest h hc hg hp]⟩

/-- The loop only adds to the trace. -/
theorem loop_trace_extends (env : Env) (n : Nat) (s : State) :
    ∃ evs, (loop env n s).trace = s.trace ++ evs := by
  induction n with
  | zero => exact ⟨[], by simp [loop]⟩
  | succ n ih =>
    obtain ⟨evs, he⟩ := ih
    obtain ⟨evs2, he2⟩ := iteration_trace_extends env (n + 1) (loop env n s)
    exact ⟨evs ++ evs2, by rw [loop, he2, he, List.append_assoc]⟩

/-- What the run does after the loop only adds to the trace. -/
theorem main_trace_extends (env : Env) :
    ∃ evs, (main env).trace = (beforeLoop env).trace ++ evs := by
  obtain ⟨evs, he⟩ := loop_trace_extends env 1000 (beforeLoop env)
  unfold main TestSequentialConsistency
  simp only [assertReachable, logPrintf, State.emit]
  cases h : (loop env 1000 (beforeLoop env)).halted with
  | some t => exact ⟨evs, by simp [h, he]⟩
  | none =>
    exact ⟨evs ++ [.reachable "Completion of a sequential consistency check",
      .log "Completion of a sequential consistency check"], by simp [h, he]⟩

/-- A run that is in the loop has passed initialization. -/
theorem beforeLoop_running (env : Env) (h : (beforeLoop env).halted = none) :
    env.connect 0 = true ∧ env.initPut = true := by
  cases hc : env.connect 0 with
  | false => rw [beforeLoop_connect_fail env hc] at h; cases h
  | true =>
    cases hp : env.initPut with
    | false => rw [beforeLoop_put_fail env hc hp] at h; cases h
    | true => exact ⟨rfl, rfl⟩

/-- Invariant of the loop: while the run has not terminated, `last_success` is the decimal
string of some `m ≤ n` that is either `0` or an iteration whose put was acknowledged, and
no later iteration has an acknowledged put. -/
theorem loop_last_success (env : Env) (n : Nat)
    (h : (loop env n (beforeLoop env)).halted = none) :
    ∃ m, m ≤ n ∧ (loop env n (beforeLoop env)).last_success = Itoa m ∧
      (m = 0 ∨ Event.put m k (Itoa m) true ∈ (loop env n (beforeLoop env)).trace) ∧
      ∀ j, m < j → ∀ v, Event.put j k v true ∉ (loop env n (beforeLoop env)).trace := by
  induction n with
  | zero =>
    have h0 : (beforeLoop env).halted = none := h
    obtain ⟨hc, hp⟩ := beforeLoop_running env h0
    refine ⟨0, le_refl _, ?_, Or.inl rfl, ?_⟩
    · show (beforeLoop env).last_success = Itoa 0
      rw [beforeLoop_ok env hc hp]; rfl
    · intro j hj v
      show Event.put j k v true ∉ (beforeLoop env).trace
      rw [beforeLoop_ok env hc hp]
      simp
      omega
  | succ n ih =>
    have hs := loop_running_pred env n _ h
    obtain ⟨m, hmn, hlast, hm, hlater⟩ := ih hs
    rw [loop] at h ⊢
    generalize loop env n (beforeLoop env) = s at h hs hlast hm hlater ⊢
    cases hc : env.connect (n + 1) with
    | false => rw [iteration_connect_fail env _ s hs hc] at h; cases h
    | true =>
      rcases hg : env.get (n + 1) with _ | (_ | ⟨v, rest⟩)
      · rw [iteration_get_error env _ s hs hc hg]
        refine ⟨m, by omega, hlast, ?_, ?_⟩
        · rcases hm with hm | hm
          · exact Or.inl hm
          · exact Or.inr (by simp [hm])
        · intro j hj w
          simp [hlater j hj w]
      · rw [iteration_get_empty env _ s hs hc hg] at h; cases h
      · cases hp : env.put (n + 1) with
        | false =>
          rw [iteration_put_fail env _ s v rest hs hc hg hp]
          refine ⟨m, by omega, hlast, ?_, ?_⟩
          · rcases hm with hm | hm
            · exact Or.inl hm
            · exact Or.inr (by simp [hm])
          · intro j hj w
            simp [hlater j hj w]
        | true =>
          rw [iteration_put_ok env _ s v rest hs hc hg hp]
          refine ⟨n + 1, le_refl _, rfl, Or.inr (by simp), ?_⟩
          intro j hj w
          simp [hlater j (by omega) w]
          omega

/-- One body of the loop either leaves `last_success` alone, or its get returned an entry
and its put was acknowledged, and `last_success` becomes the decimal string of the
counter. -/
theorem loop_step_last (env : Env) (n : Nat) :
    (loop env (n + 1) (beforeLoop env)).last_success
        = (loop env n (beforeLoop env)).last_success ∨
      ((loop env n (beforeLoop env)).halted = none ∧ env.put (n + 1) = true ∧
        (∃ v rest, env.get (n + 1) = .response (v :: rest)) ∧
        (loop env (n + 1) (beforeLoop env)).last_success = Itoa (n + 1) ∧
        Event.put (n + 1) k (Itoa (n + 1)) true ∈ (loop env (n + 1) (beforeLoop env)).trace) := by
  rw [loop]
  generalize loop env n (beforeLoop env) = s
  cases hs : s.halted with
  | some t => exact Or.inl (by rw [iteration_halted env _ s t hs])
  | none =>
    cases hc : env.connect (n + 1) with
    | false => exact Or.inl (by rw [iteration_connect_fail env _ s hs hc])
    | true =>
      rcases hg : env.get (n + 1) with _ | (_ | ⟨v, rest⟩)
      · exact Or.inl (by rw [iteration_get_error env _ s hs hc hg])
      · exact Or.inl (by rw [iteration_get_empty env _ s hs hc hg])
      · cases hp : env.put (n + 1) with
        | false => exact Or.inl (by rw [iteration_put_fail env _ s v rest hs hc hg hp])
        | true =>
          refine Or.inr ⟨rfl, rfl, ⟨v, rest, rfl⟩, ?_, ?_⟩
          · rw [iteration_put_ok env _ s v rest hs hc hg hp]
          · rw [iteration_put_ok env _ s v rest hs hc hg hp]
            simp

/-- Once the loop has terminated the process after `m` bodies, running more bodies
changes nothing. -/
theorem loop_halted_at (env : Env) (s : State) (m : Nat) (t : Termination)
    (h : (loop env m s).halted = some t) (d : Nat) :
    loop env (m + d) s = loop env m s := by
  induction d with
  | zero => rfl
  | succ d ih => rw [← Nat.add_assoc, loop, ih, iteration_halted env _ _ t h]

/-- A run whose process terminated within the first `m ≤ 1000` loop bodies ends in the
state of that termination. -/
theorem main_of_halted (env : Env) (m : Nat) (t : Termination) (hm : m ≤ 1000)
    (h : (loop env m (beforeLoop env)).halted = some t) :
    main env = loop env m (beforeLoop env) := by
  have h1000 : loop env 1000 (beforeLoop env) = loop env m (beforeLoop env) := by
    have := loop_halted_at env (beforeLoop env) m t h (1000 - m)
    rwa [Nat.add_sub_cancel' hm] at this
  unfold main TestSequentialConsistency
  simp only [h1000, assertReachable, logPrintf, State.emit, h]

/-- The whole run of `envEmptyRead`: it ends in iteration 1 with a panic, right after the
`assert.Sometimes` call that records the get as successful. -/
theorem main_envEmptyRead :
    main envEmptyRead =
      ⟨[.connected 0, .put 0 k "0" true,
          .sometimes true "Client can initialize sequential consistency test successfully",
          .closed 0, .connected 1, .get 1 k true,
          .sometimes true "Client can make successful get requests"],
        some .panic, 1, "0"⟩ := by
  rw [main_of_halted envEmptyRead 1 .panic (by decide) (by decide)]
  decide

/-- The initialization block makes no `assert.Reachable` or `assert.Unreachable` call. -/
theorem beforeLoop_no_reachability (env : Env) :
    ∀ e ∈ (beforeLoop env).trace, e.isReachability = false := by
  cases hc : env.connect 0 with
  | false => rw [beforeLoop_connect_fail env hc]; simp [Event.isReachability]
  | true =>
    cases hp : env.initPut with
    | false => rw [beforeLoop_put_fail env hc hp]; simp [Event.isReachability]
    | true => rw [beforeLoop_ok env hc hp]; simp [Event.isReachability]

/-- A body of the loop makes no `assert.Reachable` or `assert.Unreachable` call. -/
theorem iteration_no_reachability (env : Env) (i : Nat) (s : State)
    (h : ∀ e ∈ s.trace, e.isReachability = false) :
    ∀ e ∈ (iteration env i s).trace, e.isReachability = false := by
  cases hs : s.halted with
  | some t => rw [iteration_halted env i s t hs]; exact h
  | none =>
    cases hc : env.connect i with
    | false =>
      rw [iteration_connect_fail env i s hs hc]
      intro e he
      simp only [List.mem_append, List.mem_singleton] at he
      rcases he with he | rfl
      · exact h e he
      · rfl
    | true =>
      rcases hg : env.get i with _ | (_ | ⟨v, rest⟩)
      · rw [iteration_get_error env i s hs hc hg]
        intro e he
        simp only [List.mem_append, List.mem_cons, List.mem_singleton, List.not_mem_nil,
          or_false] at he
        rcases he with he | rfl | rfl | rfl | rfl
        · exact h e he
        all_goals rfl
      · rw [iteration_get_empty env i s hs hc hg]
        intro e he
        simp only [List.mem_append, List.mem_cons, List.mem_singleton, List.not_mem_nil,
          or_false] at he
        rcases he with he | rfl | rfl | rfl
        · exact h e he
        all_goals rfl
      · cases hp : env.put i with
        | false =>
          rw [iteration_put_fail env i s v rest hs hc hg hp]
          intro e he
          simp only [List.mem_append, List.mem_cons, List.mem_singleton, List.not_mem_nil,
            or_false] at he
          rcases he with he | rfl | rfl | rfl | rfl | rfl | rfl | rfl
          · exact h e he
          all_goals rfl
        | true =>
          rw [iteration_put_ok env i s v rest hs hc hg hp]
          intro e he
          simp only [List.mem_append, List.mem_cons, List.mem_singleton, List.not_mem_nil,
            or_false] at he
          rcases he with he | rfl | rfl | rfl | rfl | rfl | rfl | rfl
          · exact h e he
          all_goals rfl

/-- The loop makes no `assert.Reachable` or `assert.Unreachable` call. -/
theorem loop_no_reachability (env : Env) (n : Nat) :
    ∀ e ∈ (loop env n (beforeLoop env)).trace, e.isReachability = false := by
  induction n with
  | zero => exact beforeLoop_no_reachability env
  | succ n ih => exact iteration_no_reachability env (n + 1) _ ih

/-- In no run at all is `assert.Unreachable` called: wherever `Connect()` fails,
`log.Fatalf` has ended the process first. -/
theorem unreachable_never_recorded (env : Env) (label : String) :
    Event.unreachable label ∉ (main env).trace := by
  intro hmem
  have hloop := loop_no_reachability env 1000
  unfold main TestSequentialConsistency at hmem
  simp only [assertReachable, logPrintf, State.emit] at hmem
  cases hs : (loop env 1000 (beforeLoop env)).halted with
  | some t =>
    simp only [hs] at hmem
    exact absurd (hloop _ hmem) (by simp [Event.isReachability])
  | none =>
    simp only [hs, List.mem_append, List.mem_singleton, reduceCtorEq, or_false] at hmem
    exact absurd (hloop _ hmem) (by simp [Event.isReachability])

/-- When every connect succeeds, initialization succeeds and every get that returns without
error returns at least one entry, the loop never terminates the process, and the sessions
obtained up to the end of iteration `n` are those of blocks `0, 1, …, n`, in that order. -/
theorem loop_runs (env : Env) (hc : ∀ n, env.connect n = true) (hp : env.initPut = true)
    (hne : ∀ i, env.get i ≠ .response []) (n : Nat) :
    (loop env n (beforeLoop env)).halted = none ∧
    (loop env n (beforeLoop env)).trace.filterMap Event.connectedSession
      = List.range (n + 1) := by
  induction n with
  | zero =>
    show (beforeLoop env).halted = none ∧ _
    rw [loop, beforeLoop_ok env (hc 0) hp]
    exact ⟨rfl, rfl⟩
  | succ n ih =>
    obtain ⟨hs, hconn⟩ := ih
    rw [loop]
    rcases hg : env.get (n + 1) with _ | (_ | ⟨v, rest⟩)
    · rw [iteration_get_error env _ _ hs (hc _) hg]
      refine ⟨rfl, ?_⟩
      rw [List.filterMap_append, hconn, List.range_succ (n + 1)]
      rfl
    · exact absurd hg (hne _)
    · cases hq : env.put (n + 1) with
      | false =>
        rw [iteration_put_fail env _ _ v rest hs (hc _) hg hq]
        refine ⟨rfl, ?_⟩
        rw [List.filterMap_append, hconn, List.range_succ (n + 1)]
        rfl
      | true =>
        rw [iteration_put_ok env _ _ v rest hs (hc _) hg hq]
        refine ⟨rfl, ?_⟩
        rw [List.filterMap_append, hconn, List.range_succ (n + 1)]
        rfl

/-- When every connect succeeds, initialization succeeds and every get that returns without
error returns at least one entry, then whatever else the gets and puts return, the run
performs the 1000 iterations in order, then calls `assert.Reachable` once, logs, and
returns from `main` with exit status 0. -/
theorem run_completes (env : Env) (hc : ∀ n, env.connect n = true) (hp : env.initPut = true)
    (hne : ∀ i, env.get i ≠ .response []) :
    (main env).halted = none ∧ (main env).exitStatus = 0 ∧
    ∃ body, (main env).trace =
        body ++ [.reachable "Completion of a sequential consistency check",
          .log "Completion of a sequential consistency check"] ∧
      (∀ e ∈ body, e.isReachability = false) ∧
      body.filterMap Event.connectedSession = List.range 1001 := by
  obtain ⟨hs, hconn⟩ := loop_runs env hc hp hne 1000
  have hmain : main env =
      ⟨(loop env 1000 (beforeLoop env)).trace ++
          [.reachable "Completion of a sequential consistency check",
            .log "Completion of a sequential consistency check"],
        none, (loop env 1000 (beforeLoop env)).cli,
        (loop env 1000 (beforeLoop env)).last_success⟩ := by
    unfold main TestSequentialConsistency
    simp [assertReachable, logPrintf, State.emit, hs]
  rw [hmain]
  exact ⟨rfl, rfl, _, rfl, loop_no_reachability env 1000, hconn⟩

/-! ## Properties of the specification -/

/-- C1 (sequential visibility, expected value).  Take any run and any iteration
`i` in `1..1000` that the run reaches (initialization succeeded and no earlier block ended
the process).  An acknowledged write of iteration `j` is the trace event
`put j k (Itoa j) true`.  At the start of iteration `i`, `last_success` is `"0"` when no
iteration `j < i` had an acknowledged write, and is the decimal string of the greatest
such `j` otherwise; and when the connect of iteration `i` succeeds and its get returns a
value `v`, the `assert.Always` call of iteration `i` compares `v` with exactly that
`last_success`. -/
theorem read_compared_with_last_acknowledged_write (env : Env) (i : Nat)
    (hi1 : 1 ≤ i) (hi : i ≤ 1000)
    (hrun : (loop env (i - 1) (beforeLoop env)).halted = none) :
    ((∀ j, 1 ≤ j → j < i →
          Event.put j k (Itoa j) true ∉ (loop env (i - 1) (beforeLoop env)).trace) →
        (loop env (i - 1) (beforeLoop env)).last_success = "0") ∧
    (∀ j, 1 ≤ j → j < i →
        Event.put j k (Itoa j) true ∈ (loop env (i - 1) (beforeLoop env)).trace →
        (∀ j', j < j' → j' < i →
          Event.put j' k (Itoa j') true ∉ (loop env (i - 1) (beforeLoop env)).trace) →
        (loop env (i - 1) (beforeLoop env)).last_success = Itoa j) ∧
    (∀ v rest, env.connect i = true → env.get i = .response (v :: rest) →
        ∃ evs, (loop env i (beforeLoop env)).trace =
          (loop env (i - 1) (beforeLoop env)).trace ++
            [.connected i, .get i k true,
              .sometimes true "Client can make successful get requests",
              .always (decide (v = (loop env (i - 1) (beforeLoop env)).last_success))
                "Client's read should always reflect the latest completed write" v
                (loop env (i - 1) (beforeLoop env)).last_success] ++ evs) := by
  obtain ⟨m, hmn, hlast, hm, hlater⟩ := loop_last_success env (i - 1) hrun
  refine ⟨?_, ?_, ?_⟩
  · intro hnone
    rcases Nat.eq_zero_or_pos m with h0 | h0
    · rw [hlast, h0]; rfl
    · rcases hm with hm | hm
      · omega
      · exact absurd hm (hnone m h0 (by omega))
  · intro j hj1 hji hj hmax
    rcases Nat.lt_trichotomy m j with hlt | heq | hgt
    · exact absurd hj (hlater j hlt _)
    · rw [hlast, heq]
    · rcases hm with hm | hm
      · omega
      · exact absurd hm (hmax m hgt (by omega))
  · intro v rest hc hg
    obtain ⟨n, rfl⟩ : ∃ n, i = n + 1 := ⟨i - 1, by omega⟩
    simp only [Nat.add_sub_cancel] at hrun ⊢
    rw [loop]
    cases hp : env.put (n + 1) with
    | false =>
      rw [iteration_put_fail env _ _ v rest hrun hc hg hp]
      exact ⟨[.put (n + 1) k (Itoa (n + 1)) false,
        .sometimes false "Client can initialize sequential consistency test successfully",
        .log "Client failed to write to key %s: %v"], by simp⟩
    | true =>
      rw [iteration_put_ok env _ _ v rest hrun hc hg hp]
      exact ⟨[.put (n + 1) k (Itoa (n + 1)) true,
        .sometimes true "Client can initialize sequential consistency test successfully",
        .closed (n + 1)], by simp⟩

/-- Scenario A and Scenario B of the specification, obtained from C1 at `i = 2`: after an
iteration 1 whose read and write both succeed, iteration 2 expects `"1"`; after an
iteration 1 whose read fails, iteration 2 expects `"0"`. -/
theorem read_compared_with_last_acknowledged_write_witness :
    ((loop envAllOk (2 - 1) (beforeLoop envAllOk)).halted = none ∧
      (loop envAllOk (2 - 1) (beforeLoop envAllOk)).last_success = "1") ∧
    ((loop envReadFails (2 - 1) (beforeLoop envReadFails)).halted = none ∧
      (loop envReadFails (2 - 1) (beforeLoop envReadFails)).last_success = "0") :=
  ⟨⟨by decide,
      ((read_compared_with_last_acknowledged_write envAllOk 2 (by decide) (by decide)
        (by decide)).2.1 1 (by decide) (by decide) (by decide)
        (fun j' h1 h2 => absurd h2 (by omega))).trans (by decide)⟩,
    ⟨by decide,
      (read_compared_with_last_acknowledged_write envReadFails 2 (by decide) (by decide)
        (by decide)).1
        (fun j h1 h2 => by
          have hj : j = 1 := by omega
          subst hj
          decide)⟩⟩

/-- C5 (monotonicity and failure isolation of `last_success`).  In every run, the integer
that `last_success` denotes after `n` iterations is at most the one it denotes after
`n + d` iterations.  Across iteration `n + 1` the variable changes only if the put of that
iteration was issued and acknowledged (the event `put (n+1) k (Itoa (n+1)) true` is added
to the trace by that iteration); an iteration whose get fails, or whose put fails, leaves
it unchanged. -/
theorem last_success_monotone (env : Env) (n d : Nat) :
    decimalValue (loop env n (beforeLoop env)).last_success
        ≤ decimalValue (loop env (n + d) (beforeLoop env)).last_success ∧
    ((loop env (n + 1) (beforeLoop env)).last_success
          ≠ (loop env n (beforeLoop env)).last_success →
        Event.put (n + 1) k (Itoa (n + 1)) true ∈ (loop env (n + 1) (beforeLoop env)).trace ∧
        Event.put (n + 1) k (Itoa (n + 1)) true ∉ (loop env n (beforeLoop env)).trace) ∧
    (env.get (n + 1) = .error →
        (loop env (n + 1) (beforeLoop env)).last_success
          = (loop env n (beforeLoop env)).last_success) ∧
    (env.put (n + 1) = false →
        (loop env (n + 1) (beforeLoop env)).last_success
          = (loop env n (beforeLoop env)).last_success) := by
  refine ⟨?_, ?_, ?_, ?_⟩
  · induction d with
    | zero => exact le_refl _
    | succ d ih =>
      refine le_trans ih ?_
      rcases loop_step_last env (n + d) with heq | ⟨hs, _, _, hnew, _⟩
      · rw [← Nat.add_assoc, heq]
      · obtain ⟨m, hm, hlast, _, _⟩ := loop_last_success env (n + d) hs
        rw [← Nat.add_assoc, hnew, hlast, decimalValue_Itoa, decimalValue_Itoa]
        omega
  · intro hne
    rcases loop_step_last env n with heq | ⟨hs, _, _, _, hmem⟩
    · exact absurd heq hne
    · obtain ⟨m, hm, _, _, hlater⟩ := loop_last_success env n hs
      exact ⟨hmem, hlater (n + 1) (by omega) _⟩
  · intro hg
    rcases loop_step_last env n with heq | ⟨_, _, ⟨v, rest, hv⟩, _, _⟩
    · exact heq
    · rw [hg] at hv; cases hv
  · intro hp
    rcases loop_step_last env n with heq | ⟨_, hp2, _, _, _⟩
    · exact heq
    · rw [hp] at hp2; cases hp2

/-- C5 at concrete runs: a failed get (iteration 1 of `envLeak`) and a failed put (iteration 2
of `envLeak`) leave `last_success` unchanged, and in `envAllOk` the value grows from `0`
before the loop to `3` after three iterations. -/
theorem last_success_monotone_witness :
    (envLeak.get (0 + 1) = .error ∧
      (loop envLeak (0 + 1) (beforeLoop envLeak)).last_success
        = (loop envLeak 0 (beforeLoop envLeak)).last_success) ∧
    (envLeak.put (1 + 1) = false ∧
      (loop envLeak (1 + 1) (beforeLoop envLeak)).last_success
        = (loop envLeak 1 (beforeLoop envLeak)).last_success) ∧
    (decimalValue (loop envAllOk 0 (beforeLoop envAllOk)).last_success = 0 ∧
      decimalValue (loop envAllOk (0 + 3) (beforeLoop envAllOk)).last_success = 3 ∧
      decimalValue (loop envAllOk 0 (beforeLoop envAllOk)).last_success
        ≤ decimalValue (loop envAllOk (0 + 3) (beforeLoop envAllOk)).last_success) :=
  ⟨⟨by decide, (last_success_monotone envLeak 0 0).2.2.1 (by decide)⟩,
    ⟨by decide, (last_success_monotone envLeak 1 0).2.2.2 (by decide)⟩,
    ⟨by decide, by decide, (last_success_monotone envAllOk 0 3).1⟩⟩

/-- C7 (outcome of the initial put), for a run whose first connect succeeds.  If the put of
`"0"` fails, the whole run consists of: connect, the failed put, one `assert.Sometimes`
with condition false, `Close` of the initialization session, one log line, `os.Exit(0)`;
so no get, no further put and no `assert.Always`, `assert.Reachable` or
`assert.Unreachable` call occurs and the exit status is `0`.  If the put succeeds, the
`assert.Sometimes` call has condition true, the session is closed, the loop is entered
with `last_success = "0"`, and the trace of the whole run starts with those four events. -/
theorem initial_put_outcome (env : Env) (hc : env.connect 0 = true) :
    (env.initPut = false →
      main env =
        ⟨[.connected 0, .put 0 k "0" false,
            .sometimes false "Client can initialize sequential consistency test successfully",
            .closed 0,
            .log "Client failed to initialize sequential-consistency test successfully"],
          some (.exit 0), 0, ""⟩ ∧
      (main env).exitStatus = 0) ∧
    (env.initPut = true →
      beforeLoop env =
        ⟨[.connected 0, .put 0 k "0" true,
            .sometimes true "Client can initialize sequential consistency test successfully",
            .closed 0], none, 0, "0"⟩ ∧
      ∃ evs, (main env).trace =
        [.connected 0, .put 0 k "0" true,
          .sometimes true "Client can initialize sequential consistency test successfully",
          .closed 0] ++ evs) := by
  constructor
  · intro hp
    have hmain : main env =
        ⟨[.connected 0, .put 0 k "0" false,
            .sometimes false "Client can initialize sequential consistency test successfully",
            .closed 0,
            .log "Client failed to initialize sequential-consistency test successfully"],
          some (.exit 0), 0, ""⟩ := by
      unfold main TestSequentialConsistency
      simp only []
      rw [loop_halted env 1000 (beforeLoop env) (.exit 0)
        (by rw [beforeLoop_put_fail env hc hp]), beforeLoop_put_fail env hc hp]
      rfl
    exact ⟨hmain, by rw [hmain]; rfl⟩
  · intro hp
    refine ⟨beforeLoop_ok env hc hp, ?_⟩
    obtain ⟨evs, he⟩ := main_trace_extends env
    rw [beforeLoop_ok env hc hp] at he
    exact ⟨evs, he⟩

/-- C7 at two concrete runs: in `envInitPutFails` the run ends with exit status `0`; in
`envAllOk` the loop is entered with `last_success = "0"`. -/
theorem initial_put_outcome_witness :
    (envInitPutFails.connect 0 = true ∧ envInitPutFails.initPut = false ∧
      (main envInitPutFails).exitStatus = 0) ∧
    (envAllOk.connect 0 = true ∧ envAllOk.initPut = true ∧
      (beforeLoop envAllOk).last_success = "0") :=
  ⟨⟨rfl, rfl, ((initial_put_outcome envInitPutFails rfl).1 rfl).2⟩,
    ⟨rfl, rfl, congrArg State.last_success ((initial_put_outcome envAllOk rfl).2 rfl).1⟩⟩

/-- C2 (release of the session on every exit path) does not hold of the code.  In the run
`envLeak` the get of iteration 1 fails and the put of iteration 2 fails; both bodies end
at a `continue`, which skips `cli.Close()`.  After three iterations the process is still
running, sessions 1, 2 and 3 have been obtained, and only session 3 (whose get and put both
succeeded) has been closed. -/
theorem sessions_leak_on_continue :
    loop envLeak 3 (beforeLoop envLeak) =
      ⟨[.connected 0, .put 0 k "0" true,
          .sometimes true "Client can initialize sequential consistency test successfully",
          .closed 0,
          .connected 1, .get 1 k false,
          .sometimes false "Client can make successful get requests",
          .log "Client failed to get key %s: %v",
          .connected 2, .get 2 k true,
          .sometimes true "Client can make successful get requests",
          .always true "Client's read should always reflect the latest completed write"
            "0" "0",
          .put 2 k "2" false,
          .sometimes false "Client can initialize sequential consistency test successfully",
          .log "Client failed to write to key %s: %v",
          .connected 3, .get 3 k true,
          .sometimes true "Client can make successful get requests",
          .always true "Client's read should always reflect the latest completed write"
            "0" "0",
          .put 3 k "3" true,
          .sometimes true "Client can initialize sequential consistency test successfully",
          .closed 3], none, 3, "3"⟩ ∧
    Event.closed 1 ∉ (loop envLeak 3 (beforeLoop envLeak)).trace ∧
    Event.closed 2 ∉ (loop envLeak 3 (beforeLoop envLeak)).trace := by
  decide

/-- C3 (a failed connect is reported through `assert.Unreachable`) does not hold of the
code.  In the run `envConnectFails` the first `Connect()` fails: `log.Fatalf` writes its
line and ends the process with status 1, so the `assert.Unreachable` call of line 27 is
never made. -/
theorem connect_failure_not_reported :
    main envConnectFails =
      ⟨[.log "Failed to connect to etcd: %v"], some (.exit 1), 0, ""⟩ ∧
    (main envConnectFails).exitStatus = 1 ∧
    Event.unreachable "Client failed to connect to an etcd host"
      ∉ (main envConnectFails).trace := by
  rw [main_of_halted envConnectFails 0 (.exit 1) (by decide) (by decide)]
  decide

/-- C9 (the iteration put is recorded under a label of its own) does not hold of the code.
In the run `envPutFails` initialization succeeds and the put of iteration 1 fails; that
failure is recorded by `assert.Sometimes` with condition false under the label
"Client can initialize sequential consistency test successfully", the very label under
which the successful initialization was recorded. -/
theorem iteration_put_recorded_under_initialization_label :
    loop envPutFails 1 (beforeLoop envPutFails) =
      ⟨[.connected 0, .put 0 k "0" true,
          .sometimes true "Client can initialize sequential consistency test successfully",
          .closed 0,
          .connected 1, .get 1 k true,
          .sometimes true "Client can make successful get requests",
          .always true "Client's read should always reflect the latest completed write"
            "0" "0",
          .put 1 k "1" false,
          .sometimes false "Client can initialize sequential consistency test successfully",
          .log "Client failed to write to key %s: %v"], none, 1, "0"⟩ := by
  decide

/-- C10 (the read-compare step never faults) does not hold of the code.  In the run
`envEmptyRead` the get of iteration 1 returns `err == nil` and zero entries; evaluating
`get_resp.Kvs[0]` panics, so the body ends the process before any `assert.Always` call. -/
theorem empty_response_panics :
    iteration envEmptyRead 1 (beforeLoop envEmptyRead) =
      ⟨[.connected 0, .put 0 k "0" true,
          .sometimes true "Client can initialize sequential consistency test successfully",
          .closed 0, .connected 1, .get 1 k true,
          .sometimes true "Client can make successful get requests"],
        some .panic, 1, "0"⟩ ∧
    (iteration envEmptyRead 1 (beforeLoop envEmptyRead)).exitStatus = 2 := by
  decide

/-- C4 (exactly one `assert.Always` call in each iteration whose read succeeds) does not
hold of the code.  In the run `envEmptyRead` the get of iteration 1 succeeds (`err == nil`,
recorded as such by `assert.Sometimes`), yet the whole run contains no `assert.Always`
call at all. -/
theorem successful_read_without_always_call :
    Event.get 1 k true ∈ (main envEmptyRead).trace ∧
    Event.sometimes true "Client can make successful get requests"
      ∈ (main envEmptyRead).trace ∧
    ∀ cond label last_read expecting,
      Event.always cond label last_read expecting ∉ (main envEmptyRead).trace := by
  rw [main_envEmptyRead]
  simp

/-- C6 (a put is issued in every iteration whose get succeeded) does not hold of the code.
In the run `envEmptyRead` the get of iteration 1 succeeds, yet no put is issued in
iteration 1: the only put of the whole run is the initial one. -/
theorem successful_read_without_put :
    Event.get 1 k true ∈ (main envEmptyRead).trace ∧
    ∀ session key value ok, Event.put session key value ok ∈ (main envEmptyRead).trace →
      session = 0 ∧ value = "0" := by
  rw [main_envEmptyRead]
  refine ⟨by simp, ?_⟩
  intro session key value ok h
  simp at h
  exact ⟨h.1, h.2.2.1⟩

/-- C8 (1000 iterations and one `assert.Reachable` call whatever the gets and puts return)
does not hold of the code.  In the run `envEmptyRead` initialization and every connect
succeed, yet the process ends with a panic in iteration 1: iteration 2 never starts and
`assert.Reachable` is never called. -/
theorem empty_response_prevents_completion :
    envEmptyRead.initPut = true ∧ (∀ n, envEmptyRead.connect n = true) ∧
    (main envEmptyRead).halted = some .panic ∧
    (main envEmptyRead).exitStatus = 2 ∧
    Event.connected 2 ∉ (main envEmptyRead).trace ∧
    ∀ label, Event.reachable label ∉ (main envEmptyRead).trace := by
  rw [main_envEmptyRead]
  refine ⟨rfl, fun _ => rfl, rfl, rfl, by simp, by simp⟩

end SequentialConsistency
